import Mathlib

/-!
Verification of the screen-to-code discovery pipeline of signal-rust-setup.

The development shallowly embeds the pipeline of src/qr.rs and the entry
point link_desktop_live of src/lib.rs.  Grayscale images are modelled as a
pair of dimensions with a total luminance sampling function (8-bit samples
as Fin 256).  The f32 arithmetic of the Rust source is idealised as exact
rational arithmetic, with f32 EPSILON kept as the literal 2 ^ (-23) used by
the source; round-half-away-from-zero on the nonnegative values that occur
is floor (q + 1/2).  The external QR decoding crates (rxing, rqrr), the
image loader, the spawned screencapture process, the system_profiler query
and the xcap monitor enumeration are inputs of the embedded functions:
each is an oracle recorded in an environment structure, and the theorems
quantify over all oracle behaviours.  Real time in the capture wait loop is
discretised at the 100 ms poll granularity of the source.
-/

namespace SignalQR

/-- Grayscale image: width, height and the 8-bit luminance sample at each
coordinate (samples at coordinates outside the dimensions are irrelevant to
every statement below). -/
@[ext]
structure GrayImage where
  width : Nat
  height : Nat
  pix : Nat → Nat → Fin 256

/-- Machine epsilon of f32, the constant the source compares rescale factors
against. -/
def f32Epsilon : ℚ := 1 / 2 ^ 23

/-- Rounding of a rational to an integer as Rust f32 round does on the
values that occur here: half away from zero, which for the nonnegative
inputs of the pipeline is floor (q + 1/2).  Negative inputs only arise from
negative scale factors and are immediately clamped to 1 by scaledDim, where
the two conventions agree. -/
def roundQ (q : ℚ) : ℤ := ⌊q + 1 / 2⌋

/-- One axis of scale_luma_image: round (dim * scale) clamped to at least
one pixel, as in the source expression
((dim as f32) * scale).round().max(1.0) as u32. -/
def scaledDim (dim : Nat) (scale : ℚ) : Nat :=
  max 1 (roundQ ((dim : ℚ) * scale)).toNat

/-- Nearest-neighbour resampling, modelling image::imageops::resize with
FilterType::Nearest: each target pixel samples the source at the
proportionally scaled coordinate. -/
def nearestPix (image : GrayImage) (w h : Nat) : Nat → Nat → Fin 256 :=
  fun x y => image.pix (x * image.width / w) (y * image.height / h)

/-- Embedding of scale_luma_image of src/qr.rs: identity when the factor is
within f32 EPSILON of 1, else a nearest-neighbour resample to the rounded,
1-clamped dimensions. -/
def scale_luma_image (image : GrayImage) (scale : ℚ) : GrayImage :=
  if |scale - 1| < f32Epsilon then image
  else
    { width := scaledDim image.width scale
      height := scaledDim image.height scale
      pix := nearestPix image (scaledDim image.width scale) (scaledDim image.height scale) }

/-- Embedding of resize_luma_to_max_dimension of src/qr.rs. -/
def resize_luma_to_max_dimension (image : GrayImage) (maxDimension : Nat) : GrayImage :=
  let currentMax := max image.width image.height
  if currentMax ≤ maxDimension ∨ currentMax = 0 then image
  else scale_luma_image image ((maxDimension : ℚ) / (currentMax : ℚ))

/-- Embedding of threshold_luma_image of src/qr.rs: per pixel, 255 when the
sample is at least the threshold else 0, the two outcomes swapped when
invert is set (the source computes 255 - bit). -/
def threshold_luma_image (image : GrayImage) (threshold : Fin 256) (invert : Bool) : GrayImage where
  width := image.width
  height := image.height
  pix := fun x y =>
    let bit : Fin 256 := if threshold ≤ image.pix x y then 255 else 0
    if invert then 255 - bit else bit

/-- Path of a screenshot file, as handed between capture and decode. -/
abbrev ScreenPath := String

/-- Whether the first character list is an initial segment of the second;
executable model of str starts_with of the Rust standard library. -/
def listStarts : List Char → List Char → Bool
  | [], _ => true
  | _ :: _, [] => false
  | c :: cs, d :: ds => c == d && listStarts cs ds

/-- Model of str starts_with: the pattern's characters begin the string. -/
def strStartsWith (s pattern : String) : Bool :=
  listStarts pattern.data s.data

/-- Drop leading whitespace characters. -/
def trimLeftChars : List Char → List Char
  | [] => []
  | c :: cs => if c.isWhitespace then trimLeftChars cs else c :: cs

/-- Model of str trim_start of the Rust standard library. -/
def strTrimLeft (s : String) : String :=
  ⟨trimLeftChars s.data⟩

/-- Model of str trim of the Rust standard library: whitespace removed from
both ends. -/
def strTrim (s : String) : String :=
  ⟨(trimLeftChars (trimLeftChars s.data).reverse).reverse⟩

/-- Oracles for the two external decoding crates.  rxingDetect is the
behaviour of rxing_helpers::detect_in_luma on a given image (none for a
detection error); rqrrGrids is the list of per-grid decode outcomes rqrr
produces on a given image, in grid order (none for a grid whose decode
errors); loadImage is image::open followed by to_luma8 (error for an
unreadable file). -/
structure DecodeEnv where
  rxingDetect : GrayImage → Option String
  rqrrGrids : GrayImage → List (Option String)
  loadImage : ScreenPath → Except String GrayImage

/-- Embedding of decode_signal_qr_with_rxing_luma of src/qr.rs: on a decode
error, none; otherwise the trimmed text, kept only when it starts with
sgnl://linkdevice. -/
def decode_signal_qr_with_rxing_luma (env : DecodeEnv) (image : GrayImage) : Option String :=
  match env.rxingDetect image with
  | none => none
  | some raw =>
    let text := strTrim raw
    if strStartsWith text ("sgnl://linkdevice") then some text else none

/-- The grid loop of decode_signal_qr_with_rqrr: the first grid that decodes
successfully to text starting with sgnl://linkdevice; erroring grids and
grids with other content are skipped. -/
def rqrrFirstMatch : List (Option String) → Option String
  | [] => none
  | none :: rest => rqrrFirstMatch rest
  | some content :: rest =>
    if strStartsWith content ("sgnl://linkdevice") then some content
    else rqrrFirstMatch rest

/-- Embedding of decode_signal_qr_with_rqrr of src/qr.rs. -/
def decode_signal_qr_with_rqrr (env : DecodeEnv) (image : GrayImage) : Option String :=
  rqrrFirstMatch (env.rqrrGrids image)

/-- Run the rqrr backend over a list of candidate images, stopping at the
first match; this is the shape of both binarization ladders of src/qr.rs. -/
def rqrrOverList (env : DecodeEnv) : List GrayImage → Option String
  | [] => none
  | image :: rest =>
    match decode_signal_qr_with_rqrr env image with
    | some uri => some uri
    | none => rqrrOverList env rest

/-- The two thresholds of the short (fast-pass) ladder of src/qr.rs. -/
def fastpassThresholds : List (Fin 256) := [128, 160]

/-- Embedding of decode_signal_qr_with_rqrr_fastpass of src/qr.rs: the image
itself, then its non-inverted binarizations at thresholds 128 and 160. -/
def decode_signal_qr_with_rqrr_fastpass (env : DecodeEnv) (image : GrayImage) : Option String :=
  rqrrOverList env
    (image :: fastpassThresholds.map fun t => threshold_luma_image image t false)

/-- The scale ladder of the multipass decoder of src/qr.rs. -/
def multipassScales : List ℚ := [1, 0.85, 1.2]

/-- The threshold ladder of the multipass decoder of src/qr.rs. -/
def multipassThresholds : List (Fin 256) := [110, 140, 170]

/-- Candidate images of decode_signal_qr_with_rqrr_multipass in trial order:
for each scale, the rescaled image itself, then for each threshold its
non-inverted then inverted binarization. -/
def multipassCandidates (image : GrayImage) : List GrayImage :=
  multipassScales.flatMap fun scale =>
    let candidate := scale_luma_image image scale
    candidate :: multipassThresholds.flatMap fun t =>
      [threshold_luma_image candidate t false, threshold_luma_image candidate t true]

/-- Embedding of decode_signal_qr_with_rqrr_multipass of src/qr.rs. -/
def decode_signal_qr_with_rqrr_multipass (env : DecodeEnv) (image : GrayImage) : Option String :=
  rqrrOverList env (multipassCandidates image)

/-- QR_FAST_MAX_DIMENSION of src/lib.rs. -/
def QR_FAST_MAX_DIMENSION : Nat := 1600

/-- QR_RXING_MAX_PIXELS of src/lib.rs. -/
def QR_RXING_MAX_PIXELS : Nat := 3000000

/-- Core of decode_signal_qr_from_image of src/qr.rs, after the image has
been loaded: fast variant first through rxing then the short rqrr ladder;
then, by pixel count, either the full-resolution image through rxing and
the multipass ladder, or the 1.15-upscaled fast variant through rxing and
the short ladder. -/
def decodeSignalQrCore (env : DecodeEnv) (base : GrayImage) : Option String :=
  let fast := resize_luma_to_max_dimension base QR_FAST_MAX_DIMENSION
  match decode_signal_qr_with_rxing_luma env fast with
  | some uri => some uri
  | none =>
  match decode_signal_qr_with_rqrr_fastpass env fast with
  | some uri => some uri
  | none =>
    let pixelCount := base.width * base.height
    if pixelCount ≤ QR_RXING_MAX_PIXELS then
      match decode_signal_qr_with_rxing_luma env base with
      | some uri => some uri
      | none => decode_signal_qr_with_rqrr_multipass env base
    else
      let upscaledFast := scale_luma_image fast 1.15
      match decode_signal_qr_with_rxing_luma env upscaledFast with
      | some uri => some uri
      | none => decode_signal_qr_with_rqrr_fastpass env upscaledFast

/-- Embedding of decode_signal_qr_from_image of src/qr.rs: load the image,
then run the orchestrator core; a failed load propagates as an error. -/
def decode_signal_qr_from_image (env : DecodeEnv) (path : ScreenPath) :
    Except String (Option String) :=
  match env.loadImage path with
  | .error e => .error e
  | .ok base => .ok (decodeSignalQrCore env base)

/-- Oracles of the outer scan loop of scan_screen_for_signal_uri: the
capture outcome per 1-based attempt number (the whole fallback chain of
capture_screens_for_attempt, so an error is total exhaustion of the capture
fallbacks) and the decode outcome per screenshot path. -/
structure ScanEnv where
  capture : Nat → Except String (List ScreenPath)
  decode : ScreenPath → Except String (Option String)

/-- The exhaustion message of scan_screen_for_signal_uri, with the attempt
budget interpolated. -/
def exhaustedMessage (attempts : Nat) : String :=
  "no valid Signal Desktop QR found after " ++ toString attempts ++ " attempts"

/-- Inner loop of an attempt: run the decode orchestrator over the paths the
attempt captured, stopping at the first payload; a decode error propagates. -/
def firstUriInPaths (env : ScanEnv) : List ScreenPath → Except String (Option String)
  | [] => .ok none
  | p :: rest =>
    match env.decode p with
    | .error e => .error e
    | .ok (some uri) => .ok (some uri)
    | .ok none => firstUriInPaths env rest

/-- The attempt loop of scan_screen_for_signal_uri, recursing on the number
of remaining attempts; the current attempt number is attempts - remaining + 1.
The second component counts capture invocations performed. -/
def scanAttemptsFrom (env : ScanEnv) (attempts : Nat) :
    Nat → Except String String × Nat
  | 0 => (.error (exhaustedMessage attempts), 0)
  | remaining + 1 =>
    let attempt := attempts - remaining
    match env.capture attempt with
    | .error e => (.error e, 1)
    | .ok paths =>
      match firstUriInPaths env paths with
      | .error e => (.error e, 1)
      | .ok (some uri) => (.ok uri, 1)
      | .ok none =>
        let rest := scanAttemptsFrom env attempts remaining
        (rest.1, rest.2 + 1)

/-- Embedding of scan_screen_for_signal_uri of src/qr.rs: up to attempts
capture-and-decode rounds, first payload wins, exhaustion yields the
descriptive error.  The interval only paces the sleeps between attempts and
does not influence the result; the second component counts capture
invocations. -/
def scan_screen_for_signal_uri (env : ScanEnv) (interval : Nat) (attempts : Nat) :
    Except String String × Nat :=
  let _ := interval
  scanAttemptsFrom env attempts attempts

/-- Oracles and collaborators of link_desktop_live of src/lib.rs. -/
structure LinkEnv where
  scanEnv : ScanEnv
  screencaptureExists : Bool
  linkFromUri : String → Except String Unit

/-- Observable side effects of a link_desktop_live run: how many capture
invocations happened and whether the display pipeline (launching Signal
Desktop or scanning the screen) was touched at all. -/
structure LinkEffects where
  captureInvocations : Nat
  displayTouched : Bool

/-- The validation message of link_desktop_live. -/
def budgetValidationMessage : String := "interval and attempts must be > 0"

/-- Embedding of link_desktop_live of src/lib.rs (macOS build, where the
screencapture tool is required): validate the scan budget, require the
capture tool, then open Signal Desktop and run the scan loop, linking on a
detected payload. -/
def link_desktop_live (env : LinkEnv) (interval : Nat) (attempts : Nat) :
    Except String Unit × LinkEffects :=
  if interval = 0 ∨ attempts = 0 then
    (.error budgetValidationMessage, ⟨0, false⟩)
  else if env.screencaptureExists = false then
    (.error ("screencapture is required (macOS)"), ⟨0, false⟩)
  else
    let scanned := scan_screen_for_signal_uri env.scanEnv interval attempts
    match scanned.1 with
    | .error e => (.error e, ⟨scanned.2, true⟩)
    | .ok uri => (env.linkFromUri uri, ⟨scanned.2, true⟩)

/-- SCREEN_CAPTURE_TIMEOUT_SECS of src/lib.rs (non-test build). -/
def SCREEN_CAPTURE_TIMEOUT_SECS : Nat := 12

/-- Number of 100 ms sleeps the wait loop of capture_screen_images performs
before its elapsed time reaches the timeout: the loop polls once before each
sleep and once more when the timeout has elapsed. -/
def capturePollBudget : Nat := SCREEN_CAPTURE_TIMEOUT_SECS * 1000 / 100

/-- Oracles of capture_screen_images: whether spawning screencapture
succeeds, and the exit status the k-th 100 ms poll observes (none while the
process is still running, some true for exit status zero, some false for a
non-zero exit). -/
structure CaptureEnv where
  spawnOk : Bool
  childStatus : Nat → Option Bool

/-- Outcome of a capture invocation, together with whether the spawned
process was forcibly killed and reaped. -/
structure CaptureOutcome where
  result : Except String Unit
  killed : Bool

/-- The permission diagnostic of capture_screen_images. -/
def capturePermissionMessage : String :=
  "screencapture failed (check Screen Recording permissions)"

/-- The timeout diagnostic of capture_screen_images. -/
def captureTimeoutMessage : String :=
  "screencapture timed out after " ++ toString SCREEN_CAPTURE_TIMEOUT_SECS ++
    "s (check Screen Recording permissions and active desktop session)"

/-- The poll loop of capture_screen_images, discretised at its 100 ms poll
interval: at poll i, a reported exit decides the outcome (try_wait is
checked before the timeout, as in the source); otherwise, with the sleep
budget exhausted, the child is killed and reaped and the timeout diagnostic
returned, else the loop sleeps and polls again. -/
def captureWaitLoop (env : CaptureEnv) : Nat → Nat → CaptureOutcome
  | i, fuel =>
    match env.childStatus i with
    | some true => ⟨.ok (), false⟩
    | some false => ⟨.error capturePermissionMessage, false⟩
    | none =>
      match fuel with
      | 0 => ⟨.error captureTimeoutMessage, true⟩
      | fuel' + 1 => captureWaitLoop env (i + 1) fuel'

/-- Embedding of capture_screen_images of src/qr.rs: reject an empty path
list, spawn screencapture, then poll it up to the fixed timeout. -/
def capture_screen_images (env : CaptureEnv) (paths : List ScreenPath) : CaptureOutcome :=
  if paths = [] then ⟨.error ("no screenshot output path provided"), false⟩
  else if env.spawnOk = false then ⟨.error ("failed to run screencapture"), false⟩
  else captureWaitLoop env 0 capturePollBudget

/-- MAX_DETECTED_DISPLAYS of src/lib.rs. -/
def MAX_DETECTED_DISPLAYS : Nat := 6

/-- Oracles of detect_display_count: whether system_profiler exists, the
outcome of running it (none when the spawn itself errors, otherwise the
success flag and the stdout lines), and the outcome of xcap Monitor::all
(none for an error, some n for n monitors). -/
structure DisplayEnv where
  systemProfilerExists : Bool
  systemProfilerOutput : Option (Bool × List String)
  xcapMonitors : Option Nat

/-- Number of stdout lines that start, after leading whitespace, with
Resolution: — one per display system_profiler reports. -/
def resolutionLineCount (lines : List String) : Nat :=
  (lines.filter fun line => strStartsWith (strTrimLeft line) ("Resolution:")).length

/-- The tail of detect_display_count once the system_profiler path has
yielded nothing: the xcap monitor count when positive, clamped to
MAX_DETECTED_DISPLAYS, else 1. -/
def xcapDisplayFallback (env : DisplayEnv) : Nat :=
  match env.xcapMonitors with
  | some n => if 0 < n then min n MAX_DETECTED_DISPLAYS else 1
  | none => 1

/-- Embedding of detect_display_count of src/qr.rs: with a successful
system_profiler query, the Resolution: line count (zero promoted to 1)
clamped to MAX_DETECTED_DISPLAYS; otherwise the xcap fallback. -/
def detect_display_count (env : DisplayEnv) : Nat :=
  if env.systemProfilerExists then
    match env.systemProfilerOutput with
    | some (true, lines) =>
      let displays := resolutionLineCount lines
      min (if displays = 0 then 1 else displays) MAX_DETECTED_DISPLAYS
    | _ => xcapDisplayFallback env
  else xcapDisplayFallback env

/-- First payload among the per-path decode outcomes of one attempt, for
stating the scan loop theorems over error-free decode oracles. -/
def firstHit (dec : ScreenPath → Option String) : List ScreenPath → Option String
  | [] => none
  | p :: rest =>
    match dec p with
    | some u => some u
    | none => firstHit dec rest

/-- Decode environment whose oracles never find anything. -/
def envNoDecode : DecodeEnv where
  rxingDetect := fun _ => none
  rqrrGrids := fun _ => []
  loadImage := fun _ => .error ("unreadable")

/-- Decode environment whose rxing oracle reports an untrimmed Signal URI
and whose rqrr oracle reports an erroring grid, a foreign code and a Signal
URI, in that order. -/
def envSignalHits : DecodeEnv where
  rxingDetect := fun _ => some ("  sgnl://linkdevice?demo  ")
  rqrrGrids := fun _ => [none, some ("https://example.com"), some ("sgnl://linkdevice?grid")]
  loadImage := fun _ => .error ("unreadable")

/-- One-pixel black image. -/
def tinyImage : GrayImage where
  width := 1
  height := 1
  pix := fun _ _ => 0

/-- Two-by-one black image, for the degenerate resize bound. -/
def wideRowImage : GrayImage where
  width := 2
  height := 1
  pix := fun _ _ => 0

/-- Image of two by four pixels, for exercising the resize bound. -/
def tallImage : GrayImage where
  width := 2
  height := 4
  pix := fun _ _ => 0

/-- Single row of two to the twenty-fourth pixels, for the floating epsilon
corner of the rescale dimension law. -/
def bigRowImage : GrayImage where
  width := 16777216
  height := 1
  pix := fun _ _ => 0

/-- Scan environment where every attempt captures one screenshot and no
screenshot ever decodes to a payload. -/
def scanEnvAllMiss : ScanEnv where
  capture := fun a => .ok [toString a]
  decode := fun _ => .ok none

/-- Link environment over the all-miss scan environment. -/
def linkEnvPlain : LinkEnv where
  scanEnv := scanEnvAllMiss
  screencaptureExists := true
  linkFromUri := fun _ => .ok ()

/-- Capture environment whose spawned process never exits. -/
def captureEnvHang : CaptureEnv where
  spawnOk := true
  childStatus := fun _ => none

/-- Display environment where system_profiler succeeds and reports two
resolution lines amid other text. -/
def displayEnvTwo : DisplayEnv where
  systemProfilerExists := true
  systemProfilerOutput :=
    some (true, ["Displays:", "    Resolution: 2560 x 1440", "  Resolution: 1920 x 1080"])
  xcapMonitors := none

/-! ### Helper lemmas -/

lemma fin256_le_top (t : Fin 256) : t ≤ (255 : Fin 256) := by
  rw [Fin.le_def]
  have h := t.isLt
  have h255 : ((255 : Fin 256) : Nat) = 255 := rfl
  omega

lemma fin256_top_sub_top : (255 : Fin 256) - 255 = 0 := by decide

lemma fin256_top_sub_zero : (255 : Fin 256) - 0 = 255 := by decide

lemma roundQ_eq (q : ℚ) (n : ℤ) (h1 : (n : ℚ) ≤ q + 1 / 2) (h2 : q + 1 / 2 < n + 1) :
    roundQ q = n :=
  Int.floor_eq_iff.mpr ⟨h1, h2⟩

lemma roundQ_le (q : ℚ) (n : ℤ) (h : q + 1 / 2 < n + 1) : roundQ q ≤ n := by
  have hlt : roundQ q < n + 1 := Int.floor_lt.mpr (by push_cast; linarith)
  omega

/-! ### C10: binarize preserves dimensions and produces a two-valued image -/

/-- C10: for every grayscale image, threshold and polarity,
threshold_luma_image keeps the width and height of its input and every
output sample is exactly 0 or 255. -/
theorem binarize_dims_and_binary_range (img : GrayImage) (t : Fin 256) (invert : Bool) :
    (threshold_luma_image img t invert).width = img.width ∧
    (threshold_luma_image img t invert).height = img.height ∧
    ∀ x y, (threshold_luma_image img t invert).pix x y = 0 ∨
      (threshold_luma_image img t invert).pix x y = 255 := by
  refine ⟨rfl, rfl, fun x y => ?_⟩
  simp only [threshold_luma_image]
  by_cases h : t ≤ img.pix x y <;> cases invert <;>
    simp [h, fin256_top_sub_top, fin256_top_sub_zero]

/-! ### C4: idempotence of binarize -/

/-- C4 counterexample: re-applying the inverted binarization at threshold
128 to the one-pixel black image does not reproduce it, so binarize is not
idempotent for the inverted polarity. -/
theorem binarize_inverted_not_idempotent :
    threshold_luma_image (threshold_luma_image tinyImage 128 true) 128 true ≠
      threshold_luma_image tinyImage 128 true := fun h => by
  have h2 := congrFun (congrFun (congrArg GrayImage.pix h) 0) 0
  exact absurd h2 (by decide)

/-- C4 (amended): binarize is idempotent under re-application with the same
threshold for the non-inverted polarity (and for the inverted polarity at
threshold 0); for the inverted polarity at a nonzero threshold,
re-application instead yields the non-inverted binarization. -/
theorem binarize_idempotence_amended (img : GrayImage) (t : Fin 256) :
    threshold_luma_image (threshold_luma_image img t false) t false =
      threshold_luma_image img t false ∧
    (t = 0 → threshold_luma_image (threshold_luma_image img t true) t true =
      threshold_luma_image img t true) ∧
    (t ≠ 0 → threshold_luma_image (threshold_luma_image img t true) t true =
      threshold_luma_image img t false) := by
  have htop := fin256_le_top t
  refine ⟨?_, ?_, ?_⟩
  · ext x y
    · rfl
    · rfl
    simp only [threshold_luma_image]
    by_cases h : t ≤ img.pix x y
    · simp [h, htop]
    · have hz : ¬t ≤ (0 : Fin 256) := by
        intro hle
        exact h (le_trans hle (Fin.zero_le _))
      simp [h, hz]
  · intro ht
    subst ht
    ext x y
    · rfl
    · rfl
    simp [threshold_luma_image, Fin.zero_le, fin256_top_sub_top]
  · intro ht
    have hz : ¬t ≤ (0 : Fin 256) := by
      intro hle
      exact ht (Fin.le_zero_iff.mp hle)
    ext x y
    · rfl
    · rfl
    simp only [threshold_luma_image]
    by_cases h : t ≤ img.pix x y
    · simp [h, hz, fin256_top_sub_top, fin256_top_sub_zero]
    · simp [h, htop, fin256_top_sub_top, fin256_top_sub_zero]

/-! ### C7: the rescale dimension law -/

/-- C7 counterexample: at the representable f32 factor 1 - 2 ^ (-24), which
is within f32 EPSILON of 1, scale_luma_image returns the single-row image of
2 ^ 24 pixels unchanged, while the claimed unconditional dimension law
demands the rounded width 2 ^ 24 - 1. -/
theorem scale_dimension_law_cex :
    (scale_luma_image bigRowImage (1 - 1 / 2 ^ 24)).width ≠
      max 1 (roundQ ((bigRowImage.width : ℚ) * (1 - 1 / 2 ^ 24))).toNat := by
  have hcond : |(1 - 1 / 2 ^ 24 : ℚ) - 1| < f32Epsilon := by
    rw [show (1 - 1 / 2 ^ 24 : ℚ) - 1 = -(1 / 2 ^ 24) by ring, abs_neg,
      abs_of_pos (by norm_num)]
    norm_num [f32Epsilon]
  have hleft : (scale_luma_image bigRowImage (1 - 1 / 2 ^ 24)).width = 16777216 := by
    rw [scale_luma_image, if_pos hcond]
    rfl
  have hw : (bigRowImage.width : ℚ) = 16777216 := by
    show ((16777216 : Nat) : ℚ) = 16777216
    norm_num
  have hround : roundQ ((bigRowImage.width : ℚ) * (1 - 1 / 2 ^ 24)) = 16777215 := by
    rw [hw]
    exact roundQ_eq _ _ (by norm_num) (by norm_num)
  rw [hleft, hround]
  decide

/-- C7 (amended): when the factor differs from 1 by at least f32 EPSILON,
scale_luma_image yields round (dim * factor) pixels per axis, each clamped
to a minimum of 1; when the factor is within f32 EPSILON of 1 it returns the
image unchanged, dimensions and pixel values identical. -/
theorem scale_dimension_law_amended (img : GrayImage) (f : ℚ) :
    (|f - 1| < f32Epsilon → scale_luma_image img f = img) ∧
    (f32Epsilon ≤ |f - 1| →
      (scale_luma_image img f).width = max 1 (roundQ ((img.width : ℚ) * f)).toNat ∧
      (scale_luma_image img f).height = max 1 (roundQ ((img.height : ℚ) * f)).toNat) := by
  constructor
  · intro h
    simp [scale_luma_image, h]
  · intro h
    rw [scale_luma_image, if_neg (not_lt.mpr h)]
    exact ⟨rfl, rfl⟩

/-! ### C6: the resize-to-bound law -/

lemma scale_zero_dims (img : GrayImage) :
    (scale_luma_image img 0).width = 1 ∧ (scale_luma_image img 0).height = 1 := by
  have heps : ¬(|(0 : ℚ) - 1| < f32Epsilon) := by norm_num [f32Epsilon]
  rw [scale_luma_image, if_neg heps]
  have hr : roundQ 0 = 0 := roundQ_eq 0 0 (by norm_num) (by norm_num)
  have h : ∀ d : Nat, scaledDim d 0 = 1 := by
    intro d
    simp [scaledDim, mul_zero, hr]
  exact ⟨h _, h _⟩

/-- C6 counterexample: with the degenerate bound 0, the two-by-one image has
longer side 2 exceeding the bound, yet resize_luma_to_max_dimension returns
a one-by-one image whose longer side is 1, not the bound 0 (the 1-pixel
clamp of the axes makes the bound unreachable). -/
theorem resize_to_max_dimension_cex :
    max (resize_luma_to_max_dimension wideRowImage 0).width
      (resize_luma_to_max_dimension wideRowImage 0).height ≠ 0 := by
  have hcond : ¬(max wideRowImage.width wideRowImage.height ≤ 0 ∨
      max wideRowImage.width wideRowImage.height = 0) := by decide
  have hcast : ((0 : Nat) : ℚ) / ((max wideRowImage.width wideRowImage.height : Nat) : ℚ) = 0 := by
    norm_num
  simp only [resize_luma_to_max_dimension]
  rw [if_neg hcond, hcast]
  obtain ⟨hw, hh⟩ := scale_zero_dims wideRowImage
  rw [hw, hh]
  decide

/-- C6 (amended): resize_luma_to_max_dimension returns the image unchanged
when its longer side is already within the bound; when the longer side m
exceeds a bound maxDim with 1 ≤ maxDim and the uniform scale maxDim / m at
least f32 EPSILON below 1 (the floating-epsilon early return of the rescale,
reachable only for m above 2 ^ 23, is excluded), the result has longer side
exactly maxDim. -/
theorem resize_to_max_dimension_amended (img : GrayImage) (maxDim : Nat) :
    (max img.width img.height ≤ maxDim →
      resize_luma_to_max_dimension img maxDim = img) ∧
    (1 ≤ maxDim → maxDim < max img.width img.height →
      (maxDim : ℚ) / ((max img.width img.height : Nat) : ℚ) ≤ 1 - f32Epsilon →
      max (resize_luma_to_max_dimension img maxDim).width
        (resize_luma_to_max_dimension img maxDim).height = maxDim) := by
  constructor
  · intro h
    simp [resize_luma_to_max_dimension, h]
  · intro h1 h2 h3
    have hEpos : (0 : ℚ) < f32Epsilon := by norm_num [f32Epsilon]
    have hm0 : 0 < max img.width img.height := by omega
    have hmQ : (0 : ℚ) < ((max img.width img.height : Nat) : ℚ) := by
      exact_mod_cast hm0
    have hcond : ¬(max img.width img.height ≤ maxDim ∨ max img.width img.height = 0) := by
      omega
    simp only [resize_luma_to_max_dimension]
    rw [if_neg hcond]
    set s : ℚ := (maxDim : ℚ) / ((max img.width img.height : Nat) : ℚ) with hsdef
    have hs0 : 0 ≤ s := div_nonneg (by positivity) (le_of_lt hmQ)
    have heps : ¬(|s - 1| < f32Epsilon) := by
      rw [abs_of_nonpos (by linarith)]
      intro hlt
      linarith
    have hmul : ((max img.width img.height : Nat) : ℚ) * s = (maxDim : ℚ) := by
      rw [hsdef, mul_comm]
      exact div_mul_cancel₀ _ (ne_of_gt hmQ)
    have hdimeq : scaledDim (max img.width img.height) s = maxDim := by
      have hr : roundQ (((max img.width img.height : Nat) : ℚ) * s) = (maxDim : ℤ) := by
        rw [hmul]
        exact roundQ_eq _ _ (by push_cast; linarith) (by push_cast; linarith)
      rw [scaledDim, hr]
      omega
    have hdimle : ∀ d : Nat, d ≤ max img.width img.height → scaledDim d s ≤ maxDim := by
      intro d hd
      have hdm : ((d : Nat) : ℚ) ≤ ((max img.width img.height : Nat) : ℚ) := by
        exact_mod_cast hd
      have hle : (d : ℚ) * s ≤ (maxDim : ℚ) := by
        calc (d : ℚ) * s ≤ ((max img.width img.height : Nat) : ℚ) * s :=
              mul_le_mul_of_nonneg_right hdm hs0
          _ = (maxDim : ℚ) := hmul
      have hr : roundQ ((d : ℚ) * s) ≤ (maxDim : ℤ) :=
        roundQ_le _ _ (by push_cast; linarith)
      rw [scaledDim]
      omega
    rw [scale_luma_image, if_neg heps]
    show max (scaledDim img.width s) (scaledDim img.height s) = maxDim
    rcases Nat.le_total img.width img.height with hwh | hwh
    · rw [Nat.max_eq_right hwh] at hdimeq
      have hle := hdimle img.width (Nat.le_max_left _ _)
      omega
    · rw [Nat.max_eq_left hwh] at hdimeq
      have hle := hdimle img.height (Nat.le_max_right _ _)
      omega

/-- C6 amended witness: the two-by-four image resized to bound 2 has longer
side exactly 2. -/
theorem resize_to_max_dimension_amended_witness :
    max (resize_luma_to_max_dimension tallImage 2).width
      (resize_luma_to_max_dimension tallImage 2).height = 2 :=
  (resize_to_max_dimension_amended tallImage 2).2 (by norm_num) (by decide)
    (by show ((2 : Nat) : ℚ) / ((max 2 4 : Nat) : ℚ) ≤ 1 - f32Epsilon
        norm_num [f32Epsilon])

/-! ### C3: both backends filter by the payload marker -/

lemma rqrrFirstMatch_starts (l : List (Option String)) (uri : String)
    (h : rqrrFirstMatch l = some uri) :
    strStartsWith uri ("sgnl://linkdevice") = true := by
  induction l with
  | nil => exact absurd h (by simp [rqrrFirstMatch])
  | cons head rest ih =>
    cases head with
    | none => exact ih h
    | some content =>
      by_cases hc : strStartsWith content ("sgnl://linkdevice") = true
      · rw [rqrrFirstMatch, if_pos hc] at h
        cases h
        exact hc
      · rw [rqrrFirstMatch, if_neg hc] at h
        exact ih h

lemma rqrrFirstMatch_none (l : List (Option String))
    (h : ∀ os ∈ l, ∀ c, os = some c → strStartsWith c ("sgnl://linkdevice") = false) :
    rqrrFirstMatch l = none := by
  induction l with
  | nil => rfl
  | cons head rest ih =>
    have hrest : rqrrFirstMatch rest = none :=
      ih fun os hos c hc => h os (List.mem_cons_of_mem _ hos) c hc
    cases head with
    | none => exact hrest
    | some content =>
      have hc : strStartsWith content ("sgnl://linkdevice") = false :=
        h (some content) (List.mem_cons_self _ _) content rfl
      rw [rqrrFirstMatch, if_neg (by simp [hc]), hrest]

/-- C3: each decode backend yields some text only when that text starts with
the literal sgnl://linkdevice, and raw decoder output failing the filter
yields none rather than an error, so no string lacking the marker is ever
surfaced. -/
theorem decode_backends_filter_payload (env : DecodeEnv) (img : GrayImage) :
    (∀ uri, decode_signal_qr_with_rxing_luma env img = some uri →
      strStartsWith uri ("sgnl://linkdevice") = true) ∧
    (∀ uri, decode_signal_qr_with_rqrr env img = some uri →
      strStartsWith uri ("sgnl://linkdevice") = true) ∧
    (∀ raw, env.rxingDetect img = some raw →
      strStartsWith (strTrim raw) ("sgnl://linkdevice") = false →
      decode_signal_qr_with_rxing_luma env img = none) ∧
    ((∀ os ∈ env.rqrrGrids img, ∀ c, os = some c →
        strStartsWith c ("sgnl://linkdevice") = false) →
      decode_signal_qr_with_rqrr env img = none) := by
  refine ⟨?_, ?_, ?_, ?_⟩
  · intro uri h
    rw [decode_signal_qr_with_rxing_luma] at h
    cases hr : env.rxingDetect img with
    | none => rw [hr] at h; exact absurd h (by simp)
    | some raw =>
      rw [hr] at h
      by_cases hs : strStartsWith (strTrim raw) ("sgnl://linkdevice") = true
      · simp only [hs, if_pos] at h
        cases h
        exact hs
      · simp only [if_neg hs] at h
        exact absurd h (by simp)
  · intro uri h
    exact rqrrFirstMatch_starts _ _ h
  · intro raw hr hs
    rw [decode_signal_qr_with_rxing_luma, hr]
    simp [hs]
  · intro h
    exact rqrrFirstMatch_none _ h

/-- C3 witness: with the rxing oracle reporting an untrimmed Signal URI and
the rqrr oracle reporting an erroring grid, a foreign code and then a Signal
URI, both backends surface text carrying the marker. -/
theorem decode_backends_filter_payload_witness :
    decode_signal_qr_with_rxing_luma envSignalHits tinyImage =
      some ("sgnl://linkdevice?demo") ∧
    decode_signal_qr_with_rqrr envSignalHits tinyImage =
      some ("sgnl://linkdevice?grid") ∧
    strStartsWith ("sgnl://linkdevice?demo") ("sgnl://linkdevice") = true := by
  refine ⟨by decide, by decide, ?_⟩
  exact (decode_backends_filter_payload envSignalHits tinyImage).1
    ("sgnl://linkdevice?demo") (by decide)

/-! ### C9: display count discovery -/

lemma xcapDisplayFallback_le (env : DisplayEnv) :
    xcapDisplayFallback env ≤ MAX_DETECTED_DISPLAYS := by
  rw [xcapDisplayFallback]
  cases env.xcapMonitors with
  | none => simp [MAX_DETECTED_DISPLAYS]
  | some n =>
    by_cases hn : 0 < n
    · simp [hn]
    · simp [hn, MAX_DETECTED_DISPLAYS]

lemma xcapDisplayFallback_nothing (env : DisplayEnv)
    (h : env.xcapMonitors = none ∨ env.xcapMonitors = some 0) :
    xcapDisplayFallback env = 1 := by
  rw [xcapDisplayFallback]
  rcases h with h | h <;> simp [h]

/-- C9: detect_display_count counts the Resolution: lines of a successful
system_profiler query, promotes a zero count on a successful query to
exactly 1, clamps every result to the fixed maximum of 6, and returns
exactly 1 when both the query and the xcap monitor enumeration yield
nothing. -/
theorem detect_display_count_contract (env : DisplayEnv) :
    (∀ lines, env.systemProfilerExists = true →
      env.systemProfilerOutput = some (true, lines) →
      (resolutionLineCount lines ≠ 0 →
        detect_display_count env = min (resolutionLineCount lines) MAX_DETECTED_DISPLAYS) ∧
      (resolutionLineCount lines = 0 → detect_display_count env = 1)) ∧
    detect_display_count env ≤ MAX_DETECTED_DISPLAYS ∧
    ((env.systemProfilerExists = false ∨ env.systemProfilerOutput = none ∨
        (∃ lines, env.systemProfilerOutput = some (false, lines))) →
      (env.xcapMonitors = none ∨ env.xcapMonitors = some 0) →
      detect_display_count env = 1) := by
  refine ⟨?_, ?_, ?_⟩
  · intro lines hex hout
    rw [detect_display_count]
    simp only [hex, hout, if_true]
    constructor
    · intro h
      simp [h]
    · intro h
      simp [h, MAX_DETECTED_DISPLAYS]
  · rw [detect_display_count]
    cases hex : env.systemProfilerExists with
    | false => exact xcapDisplayFallback_le env
    | true =>
      simp only [if_true]
      cases hout : env.systemProfilerOutput with
      | none => exact xcapDisplayFallback_le env
      | some pair =>
        obtain ⟨b, lines⟩ := pair
        cases b with
        | false => exact xcapDisplayFallback_le env
        | true => exact Nat.min_le_right _ _
  · intro hq hm
    rw [detect_display_count]
    cases hex : env.systemProfilerExists with
    | false => exact xcapDisplayFallback_nothing env hm
    | true =>
      simp only [if_true]
      cases hout : env.systemProfilerOutput with
      | none => exact xcapDisplayFallback_nothing env hm
      | some pair =>
        obtain ⟨b, lines⟩ := pair
        cases b with
        | false => exact xcapDisplayFallback_nothing env hm
        | true =>
          exfalso
          rcases hq with hq | hq | ⟨lines2, hq⟩
          · rw [hex] at hq
            cases hq
          · rw [hout] at hq
            cases hq
          · rw [hout] at hq
            cases hq

/-- C9 is applied at a concrete environment: a successful query with two
indented Resolution: lines amid other text yields exactly two displays. -/
theorem detect_display_count_contract_witness :
    detect_display_count displayEnvTwo = 2 := by
  have h := ((detect_display_count_contract displayEnvTwo).1
    ["Displays:", "    Resolution: 2560 x 1440", "  Resolution: 1920 x 1080"]
    rfl rfl).1 (by decide)
  rw [h]
  decide

/-! ### C2: zero scan budget fails before any capture -/

/-- C2: with interval = 0 or attempts = 0, link_desktop_live fails with the
validation error immediately: zero capture invocations are performed and the
display pipeline is never touched. -/
theorem link_budget_validation (env : LinkEnv) (interval attempts : Nat)
    (h : interval = 0 ∨ attempts = 0) :
    link_desktop_live env interval attempts =
      (.error budgetValidationMessage, ⟨0, false⟩) := by
  rw [link_desktop_live, if_pos h]

/-- C2 applied at interval 0 with a live capture environment. -/
theorem link_budget_validation_witness :
    link_desktop_live linkEnvPlain 0 5 =
      (.error budgetValidationMessage, ⟨0, false⟩) :=
  link_budget_validation linkEnvPlain 0 5 (Or.inl rfl)

/-! ### C8: the capture wait loop is bounded -/

lemma captureWaitLoop_timeout (env : CaptureEnv) :
    ∀ fuel i, (∀ k, k ≤ fuel → env.childStatus (i + k) = none) →
      captureWaitLoop env i fuel = ⟨.error captureTimeoutMessage, true⟩ := by
  intro fuel
  induction fuel with
  | zero =>
    intro i h
    have h0 := h 0 (le_refl 0)
    rw [Nat.add_zero] at h0
    rw [captureWaitLoop, h0]
  | succ n ih =>
    intro i h
    have h0 := h 0 (Nat.zero_le _)
    rw [Nat.add_zero] at h0
    rw [captureWaitLoop, h0]
    exact ih (i + 1) fun k hk => by
      rw [Nat.add_right_comm]
      exact h (k + 1) (Nat.succ_le_succ hk)

lemma captureWaitLoop_ok (env : CaptureEnv) :
    ∀ fuel i, (captureWaitLoop env i fuel).result = .ok () →
      ∃ k, k ≤ fuel ∧ env.childStatus (i + k) = some true := by
  intro fuel
  induction fuel with
  | zero =>
    intro i h
    refine ⟨0, le_refl 0, ?_⟩
    rw [captureWaitLoop] at h
    rw [Nat.add_zero]
    cases hs : env.childStatus i with
    | none => rw [hs] at h; exact absurd h (by simp)
    | some b =>
      cases b with
      | false => rw [hs] at h; exact absurd h (by simp)
      | true => rfl
  | succ n ih =>
    intro i h
    rw [captureWaitLoop] at h
    cases hs : env.childStatus i with
    | none =>
      rw [hs] at h
      obtain ⟨k, hk, hsk⟩ := ih (i + 1) h
      exact ⟨k + 1, Nat.succ_le_succ hk, by rw [Nat.add_right_comm] at hsk; exact hsk⟩
    | some b =>
      cases b with
      | false => rw [hs] at h; exact absurd h (by simp)
      | true => exact ⟨0, Nat.zero_le _, by rw [Nat.add_zero]; exact hs⟩

lemma captureWaitLoop_nonzero (env : CaptureEnv) :
    ∀ fuel i k, k ≤ fuel → env.childStatus (i + k) = some false →
      (∀ j, j < k → env.childStatus (i + j) = none) →
      captureWaitLoop env i fuel = ⟨.error capturePermissionMessage, false⟩ := by
  intro fuel
  induction fuel with
  | zero =>
    intro i k hk hs hprior
    interval_cases k
    rw [Nat.add_zero] at hs
    rw [captureWaitLoop, hs]
  | succ n ih =>
    intro i k hk hs hprior
    cases k with
    | zero =>
      rw [Nat.add_zero] at hs
      rw [captureWaitLoop, hs]
    | succ m =>
      have hp0 := hprior 0 (Nat.succ_pos m)
      rw [Nat.add_zero] at hp0
      rw [captureWaitLoop, hp0]
      refine ih (i + 1) m (Nat.le_of_succ_le_succ hk) ?_ ?_
      · rw [Nat.add_right_comm]
        exact hs
      · intro j hj
        rw [Nat.add_right_comm]
        exact hprior (j + 1) (Nat.succ_lt_succ hj)

/-- C8: capture_screen_images never blocks beyond its fixed budget: when the
spawned process reports no exit at any of the polls inside the 12 second
window, it is killed and reaped and the timeout diagnostic returned; a
non-zero exit observed at some poll (the process still running at every
earlier poll) yields the Screen Recording permission diagnostic without a
kill; and the operation succeeds only when some poll inside the window
observes exit status zero. -/
theorem capture_timeout_bound (env : CaptureEnv) (paths : List ScreenPath)
    (hpaths : paths ≠ []) (hspawn : env.spawnOk = true) :
    ((∀ i, i ≤ capturePollBudget → env.childStatus i = none) →
      capture_screen_images env paths = ⟨.error captureTimeoutMessage, true⟩) ∧
    (∀ i, i ≤ capturePollBudget → env.childStatus i = some false →
      (∀ j, j < i → env.childStatus j = none) →
      capture_screen_images env paths = ⟨.error capturePermissionMessage, false⟩) ∧
    ((capture_screen_images env paths).result = .ok () →
      ∃ i, i ≤ capturePollBudget ∧ env.childStatus i = some true) := by
  have hopen : capture_screen_images env paths = captureWaitLoop env 0 capturePollBudget := by
    rw [capture_screen_images, if_neg hpaths, hspawn]
    simp
  refine ⟨?_, ?_, ?_⟩
  · intro h
    rw [hopen]
    exact captureWaitLoop_timeout env capturePollBudget 0 fun k hk => by
      rw [Nat.zero_add]
      exact h k hk
  · intro i hi hs hprior
    rw [hopen]
    refine captureWaitLoop_nonzero env capturePollBudget 0 i hi ?_ ?_
    · rw [Nat.zero_add]
      exact hs
    · intro j hj
      rw [Nat.zero_add]
      exact hprior j hj
  · intro h
    rw [hopen] at h
    obtain ⟨k, hk, hsk⟩ := captureWaitLoop_ok env capturePollBudget 0 h
    rw [Nat.zero_add] at hsk
    exact ⟨k, hk, hsk⟩

/-- C8 applied to a hanging capture process: the invocation returns the
timeout diagnostic with the process killed. -/
theorem capture_timeout_bound_witness :
    capture_screen_images captureEnvHang [("screen-1.png")] =
      ⟨.error captureTimeoutMessage, true⟩ :=
  (capture_timeout_bound captureEnvHang [("screen-1.png")]
    (by simp) rfl).1 fun i _ => rfl

/-! ### C5: exhaustion of the scan loop -/

lemma firstUriInPaths_total (env : ScanEnv) (dec : ScreenPath → Option String)
    (hdec : ∀ p, env.decode p = .ok (dec p)) :
    ∀ l, firstUriInPaths env l = .ok (firstHit dec l) := by
  intro l
  induction l with
  | nil => rfl
  | cons p rest ih =>
    cases hd : dec p with
    | some u => simp [firstUriInPaths, firstHit, hdec p, hd]
    | none => simp [firstUriInPaths, firstHit, hdec p, hd, ih]

lemma firstHit_none_iff (dec : ScreenPath → Option String) (l : List ScreenPath) :
    firstHit dec l = none ↔ ∀ p ∈ l, dec p = none := by
  induction l with
  | nil => simp [firstHit]
  | cons p rest ih => cases hd : dec p <;> simp [firstHit, hd, ih]

lemma scanAttemptsFrom_spec (env : ScanEnv) (attempts : Nat)
    (paths : Nat → List ScreenPath) (dec : ScreenPath → Option String)
    (hcap : ∀ a, env.capture a = .ok (paths a))
    (hdec : ∀ p, env.decode p = .ok (dec p)) :
    ∀ remaining, remaining ≤ attempts →
      ((scanAttemptsFrom env attempts remaining).1 = .error (exhaustedMessage attempts) ↔
        ∀ a, attempts - remaining < a → a ≤ attempts → firstHit dec (paths a) = none) := by
  intro remaining
  induction remaining with
  | zero =>
    intro _
    refine iff_of_true rfl ?_
    intro a h1 h2
    omega
  | succ r ih =>
    intro hr
    simp only [scanAttemptsFrom, hcap, firstUriInPaths_total env dec hdec]
    cases hh : firstHit dec (paths (attempts - r)) with
    | some u =>
      refine iff_of_false (by simp) ?_
      intro hall
      have hx := hall (attempts - r) (by omega) (by omega)
      rw [hh] at hx
      exact absurd hx (by simp)
    | none =>
      simp only
      rw [ih (by omega)]
      constructor
      · intro hsmall a ha1 ha2
        by_cases he : a = attempts - r
        · rw [he]
          exact hh
        · exact hsmall a (by omega) ha2
      · intro hbig a ha1 ha2
        exact hbig a (by omega) ha2

lemma scanAttemptsFrom_match (env : ScanEnv) (attempts : Nat)
    (paths : Nat → List ScreenPath) (dec : ScreenPath → Option String)
    (hcap : ∀ a, env.capture a = .ok (paths a))
    (hdec : ∀ p, env.decode p = .ok (dec p)) :
    ∀ remaining, remaining ≤ attempts → ∀ a u, attempts - remaining < a → a ≤ attempts →
      (∀ b, attempts - remaining < b → b < a → firstHit dec (paths b) = none) →
      firstHit dec (paths a) = some u →
      (scanAttemptsFrom env attempts remaining).1 = .ok u := by
  intro remaining
  induction remaining with
  | zero =>
    intro _ a u h1 h2
    omega
  | succ r ih =>
    intro hr a u h1 h2 hprior hmatch
    by_cases he : a = attempts - r
    · rw [he] at hmatch
      simp only [scanAttemptsFrom, hcap, firstUriInPaths_total env dec hdec, hmatch]
    · have h0 : firstHit dec (paths (attempts - r)) = none :=
        hprior (attempts - r) (by omega) (by omega)
      simp only [scanAttemptsFrom, hcap, firstUriInPaths_total env dec hdec, h0]
      exact ih (by omega) a u (by omega) h2
        (fun b hb1 hb2 => hprior b (by omega) hb2) hmatch

/-- C5: with capture and decode never erroring, the scan loop exits with the
descriptive exhaustion error, naming the attempt budget, exactly when every
screenshot of every attempt decodes to no payload; and the first attempt
carrying a payload (all earlier attempts having produced none) makes the
loop return that payload immediately. -/
theorem scan_loop_exhaustion (env : ScanEnv) (interval attempts : Nat)
    (paths : Nat → List ScreenPath) (dec : ScreenPath → Option String)
    (hcap : ∀ a, env.capture a = .ok (paths a))
    (hdec : ∀ p, env.decode p = .ok (dec p)) :
    ((scan_screen_for_signal_uri env interval attempts).1 =
        .error (exhaustedMessage attempts) ↔
      ∀ a, 1 ≤ a → a ≤ attempts → ∀ p ∈ paths a, dec p = none) ∧
    (∀ a u, 1 ≤ a → a ≤ attempts →
      (∀ b, 1 ≤ b → b < a → ∀ p ∈ paths b, dec p = none) →
      firstHit dec (paths a) = some u →
      (scan_screen_for_signal_uri env interval attempts).1 = .ok u) := by
  constructor
  · simp only [scan_screen_for_signal_uri]
    rw [scanAttemptsFrom_spec env attempts paths dec hcap hdec attempts (le_refl _)]
    constructor
    · intro h a h1 h2
      exact (firstHit_none_iff dec (paths a)).mp (h a (by omega) h2)
    · intro h a h1 h2
      exact (firstHit_none_iff dec (paths a)).mpr (h a (by omega) h2)
  · intro a u h1 h2 hprior hmatch
    simp only [scan_screen_for_signal_uri]
    exact scanAttemptsFrom_match env attempts paths dec hcap hdec attempts (le_refl _)
      a u (by omega) h2
      (fun b hb1 hb2 => (firstHit_none_iff dec (paths b)).mpr (hprior b (by omega) hb2))
      hmatch

/-- C5 applied to a two-attempt scan in which no screenshot ever carries a
payload: the loop returns exactly the exhaustion error naming the budget. -/
theorem scan_loop_exhaustion_witness :
    (scan_screen_for_signal_uri scanEnvAllMiss 1 2).1 = .error (exhaustedMessage 2) :=
  (scan_loop_exhaustion scanEnvAllMiss 1 2 (fun a => [toString a]) (fun _ => none)
    (fun _ => rfl) (fun _ => rfl)).1.mpr (fun _ _ _ _ _ => rfl)

/-! ### C1: strategy selection of the decode orchestrator -/

lemma rqrrOverList_none (env : DecodeEnv)
    (h : ∀ image, decode_signal_qr_with_rqrr env image = none) :
    ∀ l, rqrrOverList env l = none := by
  intro l
  induction l with
  | nil => rfl
  | cons img rest ih =>
    rw [rqrrOverList, h img]
    exact ih

/-- C1: once the fast variant has failed both the rxing pass and the short
rqrr ladder, the orchestrator selects its fallback by pixel count against
the fixed ceiling of 3,000,000: strictly below the ceiling it retries rxing
on the full-resolution image and then the rqrr multipass there, strictly
above it instead retries rxing and the short ladder on the 1.15-upscaled
fast variant and the full-resolution image is never decoded; the multipass
ladder is exactly scales 1.0, 0.85, 1.2, each followed by thresholds 110,
140, 170 in both polarities, stopping at the first match. -/
theorem decode_orchestrator_strategy (env : DecodeEnv) (base : GrayImage)
    (h1 : decode_signal_qr_with_rxing_luma env
      (resize_luma_to_max_dimension base QR_FAST_MAX_DIMENSION) = none)
    (h2 : decode_signal_qr_with_rqrr_fastpass env
      (resize_luma_to_max_dimension base QR_FAST_MAX_DIMENSION) = none) :
    (base.width * base.height < QR_RXING_MAX_PIXELS →
      decodeSignalQrCore env base =
        (match decode_signal_qr_with_rxing_luma env base with
         | some uri => some uri
         | none => decode_signal_qr_with_rqrr_multipass env base)) ∧
    (QR_RXING_MAX_PIXELS < base.width * base.height →
      decodeSignalQrCore env base =
        (match decode_signal_qr_with_rxing_luma env
            (scale_luma_image (resize_luma_to_max_dimension base QR_FAST_MAX_DIMENSION)
              1.15) with
         | some uri => some uri
         | none =>
           decode_signal_qr_with_rqrr_fastpass env
             (scale_luma_image (resize_luma_to_max_dimension base QR_FAST_MAX_DIMENSION)
               1.15))) ∧
    multipassCandidates base =
      [scale_luma_image base 1,
       threshold_luma_image (scale_luma_image base 1) 110 false,
       threshold_luma_image (scale_luma_image base 1) 110 true,
       threshold_luma_image (scale_luma_image base 1) 140 false,
       threshold_luma_image (scale_luma_image base 1) 140 true,
       threshold_luma_image (scale_luma_image base 1) 170 false,
       threshold_luma_image (scale_luma_image base 1) 170 true,
       scale_luma_image base 0.85,
       threshold_luma_image (scale_luma_image base 0.85) 110 false,
       threshold_luma_image (scale_luma_image base 0.85) 110 true,
       threshold_luma_image (scale_luma_image base 0.85) 140 false,
       threshold_luma_image (scale_luma_image base 0.85) 140 true,
       threshold_luma_image (scale_luma_image base 0.85) 170 false,
       threshold_luma_image (scale_luma_image base 0.85) 170 true,
       scale_luma_image base 1.2,
       threshold_luma_image (scale_luma_image base 1.2) 110 false,
       threshold_luma_image (scale_luma_image base 1.2) 110 true,
       threshold_luma_image (scale_luma_image base 1.2) 140 false,
       threshold_luma_image (scale_luma_image base 1.2) 140 true,
       threshold_luma_image (scale_luma_image base 1.2) 170 false,
       threshold_luma_image (scale_luma_image base 1.2) 170 true] := by
  refine ⟨?_, ?_, ?_⟩
  · intro hlt
    simp only [decodeSignalQrCore, h1, h2]
    rw [if_pos (Nat.le_of_lt hlt)]
  · intro hgt
    simp only [decodeSignalQrCore, h1, h2]
    rw [if_neg (by omega)]
  · rfl

/-- C1 applied to a one-pixel image (pixel count below the ceiling) with
backends that never match: the orchestrator falls through the full-resolution
branch to no payload. -/
theorem decode_orchestrator_strategy_witness :
    decodeSignalQrCore envNoDecode tinyImage = none := by
  have h := (decode_orchestrator_strategy envNoDecode tinyImage rfl rfl).1 (by decide)
  rw [h]
  exact rqrrOverList_none envNoDecode (fun _ => rfl) (multipassCandidates tinyImage)

end SignalQR
